import Mathlib

/-!
Verification of the inventory-reservation core: a shallow embedding of the
`items`/`reservations` data model (migration.sql), the atomic admission
function `create_reservation_atomic` (migration.sql), the repository-level
guarded updates (reservation.repository.ts) and the service-level operations
(reservation.service.ts, item.service.ts).

Conventions of the embedding:
* UUIDs become `Nat` drawn from a monotone generator `nextId`.
* `TIMESTAMPTZ` values become `Int` (milliseconds); `NOW()` is passed in
  explicitly as a `now` parameter, one per storage round trip.
* The two tables are lists of rows; SQL `UPDATE ... WHERE` is a `List.map`
  over the rows guarded by the `WHERE` predicate, and `SELECT ... single()`
  is `List.find?`.
* Thrown `AppError`s become `Except.error` of `ServiceError`; a plain
  `Error` (an unexpected storage failure surfaced as HTTP 500) becomes
  `ServiceError.databaseError`.
-/

deriving instance DecidableEq for Except

namespace InventoryReservation

/-- Reservation lifecycle status: the `status` CHECK constraint of
`migration.sql` and the `ReservationStatus` enum of the domain types. -/
inductive ReservationStatus where
  | PENDING
  | CONFIRMED
  | CANCELLED
  | EXPIRED
deriving DecidableEq

/-- A row of the `items` table (migration.sql): id, name, immutable
`total_quantity`, audit timestamps. -/
structure Item where
  id : Nat
  name : String
  totalQuantity : Int
  createdAt : Int
  updatedAt : Int
deriving DecidableEq

/-- A row of the `reservations` table (migration.sql). -/
structure Reservation where
  id : Nat
  itemId : Nat
  customerId : String
  quantity : Int
  status : ReservationStatus
  expiresAt : Int
  createdAt : Int
  confirmedAt : Option Int
  cancelledAt : Option Int
  expiredAt : Option Int
deriving DecidableEq

/-- The database state: both tables plus the id generator that stands in
for `uuid_generate_v4()`. -/
structure DBState where
  items : List Item
  reservations : List Reservation
  nextId : Nat
deriving DecidableEq

def emptyState : DBState := { items := [], reservations := [], nextId := 0 }

/-- `SELECT * FROM items WHERE id = ? ... single()` (item.repository.ts,
`findById`). -/
def findItem (s : DBState) (id : Nat) : Option Item :=
  s.items.find? (fun i => i.id == id)

/-- `SELECT * FROM reservations WHERE id = ? ... single()`
(reservation.repository.ts, `findById`). -/
def findReservation (s : DBState) (id : Nat) : Option Reservation :=
  s.reservations.find? (fun r => r.id == id)

/-- The `WHERE item_id = ? AND status = 'PENDING' AND expires_at > NOW()`
filter used by the availability queries. -/
def isActivePending (itemId : Nat) (now : Int) (r : Reservation) : Bool :=
  r.itemId == itemId && r.status == ReservationStatus.PENDING && decide (now < r.expiresAt)

/-- The `WHERE item_id = ? AND status = 'CONFIRMED'` filter. -/
def isConfirmedFor (itemId : Nat) (r : Reservation) : Bool :=
  r.itemId == itemId && r.status == ReservationStatus.CONFIRMED

/-- `getActiveReservedQuantity` (reservation.repository.ts): sum of the
quantities of PENDING, unexpired reservations of an item. -/
def getActiveReservedQuantity (s : DBState) (itemId : Nat) (now : Int) : Int :=
  ((s.reservations.filter (isActivePending itemId now)).map (fun r => r.quantity)).sum

/-- `getConfirmedQuantity` (reservation.repository.ts): sum of the
quantities of CONFIRMED reservations of an item. -/
def getConfirmedQuantity (s : DBState) (itemId : Nat) : Int :=
  ((s.reservations.filter (isConfirmedFor itemId)).map (fun r => r.quantity)).sum

/-- `available = total_quantity - reserved - confirmed`, the derived view
computed both by `create_reservation_atomic` and by the service layer. -/
def availableQuantity (s : DBState) (item : Item) (now : Int) : Int :=
  item.totalQuantity - getActiveReservedQuantity s item.id now - getConfirmedQuantity s item.id

/-- Service-level errors: the `AppError` codes of error.types.ts together
with their structured `details`, plus `databaseError` for a plain thrown
`Error` (an opaque internal failure). -/
inductive ServiceError where
  | itemNotFound
  | reservationNotFound
  | insufficientQuantity (requested : Int) (available : Int)
  | reservationExpired (expiredAt : Int)
  | invalidStatusTransition (currentStatus : ReservationStatus)
  | confirmationFailed
  | cancellationFailed
  | databaseError
deriving DecidableEq

/-- The PENDING row built by the `INSERT INTO reservations` of
`create_reservation_atomic`; `created_at` defaults to `NOW()`, the
timestamp columns of the terminal states are absent. -/
def newRes (s : DBState) (itemId : Nat) (customerId : String)
    (quantity : Int) (expiresAt now : Int) : Reservation :=
  { id := s.nextId, itemId := itemId, customerId := customerId,
    quantity := quantity, status := ReservationStatus.PENDING,
    expiresAt := expiresAt, createdAt := now,
    confirmedAt := none, cancelledAt := none, expiredAt := none }

/-- `INSERT INTO reservations` with the CHECK constraints of migration.sql
(`quantity > 0`, `expires_at > created_at`); `created_at` defaults to
`NOW()`. Returns `none` when a constraint is violated (the statement would
raise and the transaction abort). -/
def insertReservation (s : DBState) (itemId : Nat) (customerId : String)
    (quantity : Int) (expiresAt now : Int) : Option (Reservation × DBState) :=
  if 0 < quantity ∧ now < expiresAt then
    some (newRes s itemId customerId quantity expiresAt now,
      { s with reservations := s.reservations ++ [newRes s itemId customerId quantity expiresAt now],
               nextId := s.nextId + 1 })
  else none

/-- Outcome of the SQL function `create_reservation_atomic`
(migration.sql): the created row, NULL for insufficient quantity, a raised
exception for a missing item, or a raised CHECK-constraint violation. -/
inductive AtomicResult where
  | created (r : Reservation)
  | insufficient
  | itemNotFound
  | checkViolation
deriving DecidableEq

/-- `create_reservation_atomic` (migration.sql, lines 159-226): lock the
item row, recompute reserved and confirmed quantities inside the lock,
compare with the requested quantity and either insert a PENDING row or
return NULL. The whole function is one transaction, hence one atomic step
of the model. -/
def create_reservation_atomic (s : DBState) (itemId : Nat) (customerId : String)
    (quantity : Int) (expiresAt now : Int) : AtomicResult × DBState :=
  match findItem s itemId with
  | none => (AtomicResult.itemNotFound, s)
  | some item =>
    let reserved := getActiveReservedQuantity s itemId now
    let confirmed := getConfirmedQuantity s itemId
    let available := item.totalQuantity - reserved - confirmed
    if available < quantity then (AtomicResult.insufficient, s)
    else
      match insertReservation s itemId customerId quantity expiresAt now with
      | some (r, s2) => (AtomicResult.created r, s2)
      | none => (AtomicResult.checkViolation, s)

/-- `ReservationService.createReservation` (reservation.service.ts): check
the item exists, call the atomic creation with
`expires_at = now + RESERVATION_EXPIRY_MS`, re-fetch the created row
(repository `createAtomic`), and on a NULL result recompute the current
availability for the `InsufficientQuantity{requested, available}` error.
A raised 'Item not found' inside the RPC is rethrown by the repository as
a plain `Error` (not an `AppError`), hence `databaseError` here; that
branch is unreachable after the service-level existence check. -/
def createReservation (s : DBState) (itemId : Nat) (customerId : String)
    (quantity : Int) (now expiryMs : Int) : Except ServiceError Reservation × DBState :=
  match findItem s itemId with
  | none => (Except.error ServiceError.itemNotFound, s)
  | some item =>
    match create_reservation_atomic s itemId customerId quantity (now + expiryMs) now with
    | (AtomicResult.itemNotFound, s2) => (Except.error ServiceError.databaseError, s2)
    | (AtomicResult.insufficient, s2) =>
        let reserved := getActiveReservedQuantity s2 itemId now
        let confirmed := getConfirmedQuantity s2 itemId
        (Except.error (ServiceError.insufficientQuantity quantity
          (item.totalQuantity - reserved - confirmed)), s2)
    | (AtomicResult.created r, s2) =>
        match findReservation s2 r.id with
        | some r2 => (Except.ok r2, s2)
        | none => (Except.error ServiceError.databaseError, s2)
    | (AtomicResult.checkViolation, s2) => (Except.error ServiceError.databaseError, s2)

/-- The `WHERE id = ? AND status = 'PENDING' AND expires_at > NOW()` guard
of the repository `confirmReservation` update. -/
def confirmGuard (id : Nat) (now : Int) (r : Reservation) : Bool :=
  r.id == id && r.status == ReservationStatus.PENDING && decide (now < r.expiresAt)

/-- The `SET status = 'CONFIRMED', confirmed_at = NOW()` assignment. -/
def applyConfirm (now : Int) (r : Reservation) : Reservation :=
  { r with status := ReservationStatus.CONFIRMED, confirmedAt := some now }

/-- `ReservationRepository.confirmReservation`: guarded conditional
UPDATE returning the updated row, or `none` when zero rows matched. -/
def repoConfirmReservation (s : DBState) (id : Nat) (now : Int) :
    Option Reservation × DBState :=
  match s.reservations.find? (confirmGuard id now) with
  | none => (none, s)
  | some r =>
    (some (applyConfirm now r),
     { s with reservations :=
        s.reservations.map (fun x => if confirmGuard id now x then applyConfirm now x else x) })

/-- The `WHERE id = ? AND status = 'PENDING'` guard of the repository
`cancelReservation` update. -/
def cancelGuard (id : Nat) (r : Reservation) : Bool :=
  r.id == id && r.status == ReservationStatus.PENDING

/-- The `SET status = 'CANCELLED', cancelled_at = NOW()` assignment. -/
def applyCancel (now : Int) (r : Reservation) : Reservation :=
  { r with status := ReservationStatus.CANCELLED, cancelledAt := some now }

/-- `ReservationRepository.cancelReservation`: guarded conditional UPDATE
returning the updated row, or `none` when zero rows matched. -/
def repoCancelReservation (s : DBState) (id : Nat) (now : Int) :
    Option Reservation × DBState :=
  match s.reservations.find? (cancelGuard id) with
  | none => (none, s)
  | some r =>
    (some (applyCancel now r),
     { s with reservations :=
        s.reservations.map (fun x => if cancelGuard id x then applyCancel now x else x) })

/-- `ReservationService.confirmReservation` with the two storage round
trips made explicit: the initial `findById` observes state `pre`, while
the guarded update and the lost-race re-read run against state `upd`
(concurrent writers may have moved the database between the two).
The sequential behaviour is the diagonal `pre = upd`. -/
def confirmReservationAt (pre upd : DBState) (id : Nat) (now : Int) :
    Except ServiceError Reservation × DBState :=
  match findReservation pre id with
  | none => (Except.error ServiceError.reservationNotFound, upd)
  | some existing =>
    if existing.status = ReservationStatus.CONFIRMED then (Except.ok existing, upd)
    else if existing.status ≠ ReservationStatus.PENDING then
      (Except.error (ServiceError.invalidStatusTransition existing.status), upd)
    else if existing.expiresAt < now then
      (Except.error (ServiceError.reservationExpired existing.expiresAt), upd)
    else
      match repoConfirmReservation upd id now with
      | (some confirmed, s2) => (Except.ok confirmed, s2)
      | (none, s2) =>
        match findReservation s2 id with
        | some current =>
          if current.status = ReservationStatus.CONFIRMED then (Except.ok current, s2)
          else (Except.error ServiceError.confirmationFailed, s2)
        | none => (Except.error ServiceError.confirmationFailed, s2)

/-- `ReservationService.confirmReservation`, sequential semantics. -/
def confirmReservation (s : DBState) (id : Nat) (now : Int) :
    Except ServiceError Reservation × DBState :=
  confirmReservationAt s s id now

/-- `ReservationService.cancelReservation` with the two storage round
trips made explicit, analogous to `confirmReservationAt`. -/
def cancelReservationAt (pre upd : DBState) (id : Nat) (now : Int) :
    Except ServiceError Reservation × DBState :=
  match findReservation pre id with
  | none => (Except.error ServiceError.reservationNotFound, upd)
  | some existing =>
    if existing.status = ReservationStatus.CANCELLED then (Except.ok existing, upd)
    else if existing.status = ReservationStatus.EXPIRED then (Except.ok existing, upd)
    else if existing.status = ReservationStatus.CONFIRMED then
      (Except.error (ServiceError.invalidStatusTransition existing.status), upd)
    else
      match repoCancelReservation upd id now with
      | (some cancelled, s2) => (Except.ok cancelled, s2)
      | (none, s2) =>
        match findReservation s2 id with
        | some current =>
          if current.status = ReservationStatus.CANCELLED ∨
             current.status = ReservationStatus.EXPIRED then (Except.ok current, s2)
          else (Except.error ServiceError.cancellationFailed, s2)
        | none => (Except.error ServiceError.cancellationFailed, s2)

/-- `ReservationService.cancelReservation`, sequential semantics. -/
def cancelReservation (s : DBState) (id : Nat) (now : Int) :
    Except ServiceError Reservation × DBState :=
  cancelReservationAt s s id now

/-- The `WHERE status = 'PENDING' AND expires_at <= NOW()` filter of the
batch expiry update. -/
def dueForExpiry (now : Int) (r : Reservation) : Bool :=
  r.status == ReservationStatus.PENDING && decide (r.expiresAt ≤ now)

/-- The `SET status = 'EXPIRED', expired_at = NOW()` assignment. -/
def applyExpire (now : Int) (r : Reservation) : Reservation :=
  { r with status := ReservationStatus.EXPIRED, expiredAt := some now }

/-- Result shape of the batch expiry (reservation.types.ts). -/
structure ExpireReservationsResult where
  expiredCount : Nat
  expiredReservationIds : List Nat
deriving DecidableEq

/-- `ReservationRepository.expireReservations` (and
`MaintenanceService.expireReservations`, which forwards to it): one
set-based conditional update over all due PENDING rows, returning the ids
of exactly the rows it changed. -/
def expireReservations (s : DBState) (now : Int) :
    ExpireReservationsResult × DBState :=
  let ids := (s.reservations.filter (dueForExpiry now)).map (fun r => r.id)
  ({ expiredCount := ids.length, expiredReservationIds := ids },
   { s with reservations :=
      s.reservations.map (fun r => if dueForExpiry now r then applyExpire now r else r) })

/-- `ItemService.createItem` / `ItemRepository.create`: INSERT INTO items,
with the `total_quantity > 0` CHECK constraint of migration.sql. -/
def createItem (s : DBState) (name : String) (totalQuantity : Int) (now : Int) :
    Except ServiceError Item × DBState :=
  if 0 < totalQuantity then
    let item : Item :=
      { id := s.nextId, name := name, totalQuantity := totalQuantity,
        createdAt := now, updatedAt := now }
    (Except.ok item, { s with items := s.items ++ [item], nextId := s.nextId + 1 })
  else (Except.error ServiceError.databaseError, s)

/-- The operations a client can drive against the core. -/
inductive Op where
  | createItem (name : String) (totalQuantity : Int)
  | createReservation (itemId : Nat) (customerId : String) (quantity : Int) (expiryMs : Int)
  | confirm (id : Nat)
  | cancel (id : Nat)
  | expireDue
deriving DecidableEq

/-- One operation applied at time `now`, keeping only the state. -/
def step (s : DBState) (now : Int) : Op → DBState
  | Op.createItem n q => (createItem s n q now).2
  | Op.createReservation i c q e => (createReservation s i c q now e).2
  | Op.confirm id => (confirmReservation s id now).2
  | Op.cancel id => (cancelReservation s id now).2
  | Op.expireDue => (expireReservations s now).2

/-- Execute a timestamped trace of operations. -/
def execTrace (s : DBState) : List (Int × Op) → DBState
  | [] => s
  | (t, op) :: rest => execTrace (step s t op) rest

/-- The trace's timestamps are nondecreasing, start no earlier than `t0`,
and end no later than the observation instant `tEnd`. -/
def TimesChain (t0 : Int) : List (Int × Op) → Int → Prop
  | [], tEnd => t0 ≤ tEnd
  | (t, _) :: rest, tEnd => t0 ≤ t ∧ TimesChain t rest tEnd

/-- The global invariant of spec section 3 for a single item:
`confirmed + pending(unexpired) ≤ total_quantity`. -/
def HoldsFor (s : DBState) (item : Item) (now : Int) : Prop :=
  getConfirmedQuantity s item.id + getActiveReservedQuantity s item.id now
    ≤ item.totalQuantity

/-- The global invariant for every item of the state. -/
def Invariant (s : DBState) (now : Int) : Prop :=
  ∀ item ∈ s.items, HoldsFor s item now

/-- Structural well-formedness of a reachable database state: the id
generator is fresh, quantities satisfy the CHECK constraint, and both
primary-key columns are duplicate-free. -/
def WF (s : DBState) : Prop :=
  (∀ i ∈ s.items, i.id < s.nextId) ∧
  (∀ r ∈ s.reservations, r.id < s.nextId) ∧
  (∀ r ∈ s.reservations, r.itemId < s.nextId) ∧
  (∀ r ∈ s.reservations, 0 < r.quantity) ∧
  (s.items.map (fun i => i.id)).Nodup ∧
  (s.reservations.map (fun r => r.id)).Nodup

/-- Pointwise contribution of one reservation row to
`confirmed + pending(unexpired)` for a given item. -/
def heldContrib (itemId : Nat) (now : Int) (r : Reservation) : Int :=
  (if isConfirmedFor itemId r then r.quantity else 0) +
  (if isActivePending itemId now r then r.quantity else 0)

/-- Result classifiers used to count the outcomes of a batch of
admission attempts. -/
def isOkResult : Except ServiceError Reservation → Bool
  | Except.ok _ => true
  | Except.error _ => false

def isInsufficientResult : Except ServiceError Reservation → Bool
  | Except.error (ServiceError.insufficientQuantity _ _) => true
  | _ => false

/-- `m` sequential admission attempts for one unit each of the same item,
all stamped with the same time: the serialization the per-item row lock
imposes on `m` concurrent `CreateReservation` calls. -/
def runCreates (s : DBState) (itemId : Nat) (customerId : String)
    (now expiryMs : Int) : Nat → List (Except ServiceError Reservation) × DBState
  | 0 => ([], s)
  | Nat.succ m =>
    let out := createReservation s itemId customerId 1 now expiryMs
    let rest := runCreates out.2 itemId customerId now expiryMs m
    (out.1 :: rest.1, rest.2)

/-! ### Concrete fixtures used by the witnesses and counterexamples -/

def itemW : Item := { id := 0, name := "shirt", totalQuantity := 5, createdAt := 0, updatedAt := 0 }

def itemW2 : Item := { id := 0, name := "mug", totalQuantity := 2, createdAt := 0, updatedAt := 0 }

/-- One item with five units, no reservations. -/
def sW : DBState := { items := [itemW], reservations := [], nextId := 1 }

/-- One item with two units, no reservations. -/
def sW2 : DBState := { items := [itemW2], reservations := [], nextId := 1 }

/-- A PENDING reservation of two units expiring at time 100. -/
def rP : Reservation :=
  { id := 1, itemId := 0, customerId := "alice", quantity := 2,
    status := ReservationStatus.PENDING, expiresAt := 100, createdAt := 0,
    confirmedAt := none, cancelledAt := none, expiredAt := none }

def sP : DBState := { items := [itemW], reservations := [rP], nextId := 2 }

/-- The same reservation after a concurrent expiry sweep won the race. -/
def rPexp : Reservation :=
  { rP with status := ReservationStatus.EXPIRED, expiredAt := some 100 }

def sPexp : DBState := { items := [itemW], reservations := [rPexp], nextId := 2 }

/-- A CONFIRMED reservation. -/
def rC : Reservation :=
  { id := 1, itemId := 0, customerId := "alice", quantity := 2,
    status := ReservationStatus.CONFIRMED, expiresAt := 100, createdAt := 0,
    confirmedAt := some 10, cancelledAt := none, expiredAt := none }

def sC : DBState := { items := [itemW], reservations := [rC], nextId := 2 }

/-- A concrete timestamped trace: create an item, reserve three units,
confirm that reservation, then reserve two more units. -/
def trW : List (Int × Op) :=
  [(0, Op.createItem "shirt" 5),
   (1, Op.createReservation 0 "alice" 3 10),
   (2, Op.confirm 1),
   (3, Op.createReservation 0 "bob" 2 10)]

/-! ### Generic list lemmas -/

theorem sum_map_filter_eq {α : Type} (p : α → Bool) (f : α → Int) :
    ∀ l : List α, ((l.filter p).map f).sum = (l.map (fun x => if p x then f x else 0)).sum := by
  intro l
  induction l with
  | nil => rfl
  | cons x xs ih => cases h : p x <;> simp [List.filter_cons, h, ih]

theorem sum_map_add {α : Type} (f g : α → Int) :
    ∀ l : List α, (l.map (fun x => f x + g x)).sum = (l.map f).sum + (l.map g).sum := by
  intro l
  induction l with
  | nil => rfl
  | cons x xs ih => simp only [List.map_cons, List.sum_cons, ih]; ring

theorem find_key_of_nodup {α : Type} (key : α → Nat) :
    ∀ {l : List α}, (l.map key).Nodup → ∀ {a : α}, a ∈ l →
      l.find? (fun x => key x == key a) = some a := by
  intro l
  induction l with
  | nil => intro _ a ha; cases ha
  | cons x xs ih =>
    intro hnd a ha
    simp only [List.map_cons, List.nodup_cons] at hnd
    rcases List.mem_cons.mp ha with rfl | hmem
    · simp [List.find?]
    · have hne : (key x == key a) = false := by
        simp only [beq_eq_false_iff_ne, ne_eq]
        intro he; exact hnd.1 (he ▸ List.mem_map_of_mem key hmem)
      simp [List.find?, hne, ih hnd.2 hmem]

theorem key_unique {α : Type} (key : α → Nat) {l : List α} (hnd : (l.map key).Nodup)
    {a b : α} (ha : a ∈ l) (hb : b ∈ l) (hk : key a = key b) : a = b :=
  List.inj_on_of_nodup_map hnd ha hb hk

theorem find?_restrict {α : Type} {p q : α → Bool} (himp : ∀ x, q x = true → p x = true) :
    ∀ {l : List α} {a : α}, l.find? p = some a → q a = true → l.find? q = some a := by
  intro l
  induction l with
  | nil => intro a h _; simp [List.find?] at h
  | cons x xs ih =>
    intro a hfind hq
    cases hpx : p x with
    | true =>
      simp only [List.find?, hpx] at hfind
      cases hfind
      simp [List.find?, hq]
    | false =>
      have hqx : q x = false := by
        cases hqx : q x with
        | true => exact absurd (himp x hqx) (by simp [hpx])
        | false => rfl
      simp only [List.find?, hpx] at hfind
      simp [List.find?, hqx, ih hfind hq]

theorem find?_map_key {α : Type} (key : α → Nat) (f : α → α)
    (hf : ∀ x, key (f x) = key x) (k : Nat) :
    ∀ l : List α, (l.map f).find? (fun x => key x == k) = (l.find? (fun x => key x == k)).map f := by
  intro l
  induction l with
  | nil => rfl
  | cons x xs ih =>
    cases h : (key x == k) with
    | true => simp [List.find?, hf, h]
    | false => simp [List.find?, hf, h, ih]

/-! ### Contribution of a single row to the invariant sums -/

theorem held_eq (s : DBState) (itemId : Nat) (now : Int) :
    getConfirmedQuantity s itemId + getActiveReservedQuantity s itemId now
      = (s.reservations.map (heldContrib itemId now)).sum := by
  unfold getConfirmedQuantity getActiveReservedQuantity heldContrib
  rw [sum_map_filter_eq, sum_map_filter_eq, sum_map_add]

theorem activeReserved_antitone (s : DBState) (itemId : Nat) {t t2 : Int}
    (hq : ∀ r ∈ s.reservations, 0 ≤ r.quantity) (ht : t ≤ t2) :
    getActiveReservedQuantity s itemId t2 ≤ getActiveReservedQuantity s itemId t := by
  unfold getActiveReservedQuantity
  rw [sum_map_filter_eq, sum_map_filter_eq]
  apply List.sum_le_sum
  intro r hr
  cases h : isActivePending itemId t2 r with
  | false =>
    cases h2 : isActivePending itemId t r with
    | false => simp [h, h2]
    | true => simp only [h, h2, if_true, if_false]; exact hq r hr
  | true =>
    have h2 : isActivePending itemId t r = true := by
      unfold isActivePending at h ⊢
      simp only [Bool.and_eq_true, decide_eq_true_eq] at h ⊢
      exact ⟨h.1, lt_of_le_of_lt ht h.2⟩
    simp [h, h2]

theorem invariant_weaken {s : DBState} {t t2 : Int}
    (hq : ∀ r ∈ s.reservations, 0 ≤ r.quantity) (ht : t ≤ t2)
    (hinv : Invariant s t) : Invariant s t2 := by
  intro item hitem
  have h1 := hinv item hitem
  have h2 := activeReserved_antitone s item.id hq ht
  unfold HoldsFor at h1 ⊢
  omega

/-! ### Aggregates under the primitive state changes -/

theorem aggregates_zero (s : DBState) (j : Nat) (t : Int)
    (h : ∀ r ∈ s.reservations, r.itemId ≠ j) :
    getConfirmedQuantity s j = 0 ∧ getActiveReservedQuantity s j t = 0 := by
  have hc : s.reservations.filter (isConfirmedFor j) = [] := by
    rw [List.filter_eq_nil_iff]
    intro r hr
    unfold isConfirmedFor
    simp [h r hr]
  have ha : s.reservations.filter (isActivePending j t) = [] := by
    rw [List.filter_eq_nil_iff]
    intro r hr
    unfold isActivePending
    simp [h r hr]
  unfold getConfirmedQuantity getActiveReservedQuantity
  rw [hc, ha]
  exact ⟨rfl, rfl⟩

theorem getConfirmed_append_one (s : DBState) (j : Nat) (r : Reservation) (m : Nat) :
    getConfirmedQuantity { s with reservations := s.reservations ++ [r], nextId := m } j
      = getConfirmedQuantity s j + (if isConfirmedFor j r then r.quantity else 0) := by
  unfold getConfirmedQuantity
  cases h : isConfirmedFor j r <;> simp [List.filter_append, h]

theorem getActive_append_one (s : DBState) (j : Nat) (t : Int) (r : Reservation) (m : Nat) :
    getActiveReservedQuantity { s with reservations := s.reservations ++ [r], nextId := m } j t
      = getActiveReservedQuantity s j t + (if isActivePending j t r then r.quantity else 0) := by
  unfold getActiveReservedQuantity
  cases h : isActivePending j t r <;> simp [List.filter_append, h]

theorem held_map_le (s : DBState) (j : Nat) (t : Int) (f : Reservation → Reservation)
    (h : ∀ r ∈ s.reservations, heldContrib j t (f r) ≤ heldContrib j t r) :
    getConfirmedQuantity { s with reservations := s.reservations.map f } j +
      getActiveReservedQuantity { s with reservations := s.reservations.map f } j t
    ≤ getConfirmedQuantity s j + getActiveReservedQuantity s j t := by
  rw [held_eq, held_eq]
  show ((s.reservations.map f).map (heldContrib j t)).sum
    ≤ (s.reservations.map (heldContrib j t)).sum
  rw [List.map_map]
  exact List.sum_le_sum h

theorem held_map_eq (s : DBState) (j : Nat) (t : Int) (f : Reservation → Reservation)
    (h : ∀ r ∈ s.reservations, heldContrib j t (f r) = heldContrib j t r) :
    getConfirmedQuantity { s with reservations := s.reservations.map f } j +
      getActiveReservedQuantity { s with reservations := s.reservations.map f } j t
    = getConfirmedQuantity s j + getActiveReservedQuantity s j t := by
  rw [held_eq, held_eq]
  show ((s.reservations.map f).map (heldContrib j t)).sum
    = (s.reservations.map (heldContrib j t)).sum
  rw [List.map_map]
  exact congrArg List.sum (List.map_congr_left h)

/-! ### Well-formedness preservation -/

theorem WF_map (s : DBState) (f : Reservation → Reservation)
    (hid : ∀ r, (f r).id = r.id) (hitem : ∀ r, (f r).itemId = r.itemId)
    (hqty : ∀ r, (f r).quantity = r.quantity) (hwf : WF s) :
    WF { s with reservations := s.reservations.map f } := by
  obtain ⟨h1, h2, h3, h4, h5, h6⟩ := hwf
  refine ⟨h1, ?_, ?_, ?_, h5, ?_⟩
  · intro r hr
    obtain ⟨a, ha, rfl⟩ := List.mem_map.mp hr
    rw [hid]; exact h2 a ha
  · intro r hr
    obtain ⟨a, ha, rfl⟩ := List.mem_map.mp hr
    rw [hitem]; exact h3 a ha
  · intro r hr
    obtain ⟨a, ha, rfl⟩ := List.mem_map.mp hr
    rw [hqty]; exact h4 a ha
  · have heq : (s.reservations.map f).map (fun r => r.id)
        = s.reservations.map (fun r => r.id) := by
      rw [List.map_map]
      exact List.map_congr_left (fun a _ => hid a)
    show ((s.reservations.map f).map (fun r => r.id)).Nodup
    rw [heq]; exact h6

theorem WF_insertRes (s : DBState) (r : Reservation) (hid : r.id = s.nextId)
    (hitem : r.itemId < s.nextId) (hq : 0 < r.quantity) (hwf : WF s) :
    WF { s with reservations := s.reservations ++ [r], nextId := s.nextId + 1 } := by
  obtain ⟨h1, h2, h3, h4, h5, h6⟩ := hwf
  refine ⟨?_, ?_, ?_, ?_, h5, ?_⟩
  · intro i hi; exact lt_trans (h1 i hi) (Nat.lt_succ_self _)
  · intro x hx
    rcases List.mem_append.mp hx with hx | hx
    · exact lt_trans (h2 x hx) (Nat.lt_succ_self _)
    · rcases List.mem_singleton.mp hx with rfl
      rw [hid]; exact Nat.lt_succ_self _
  · intro x hx
    rcases List.mem_append.mp hx with hx | hx
    · exact lt_trans (h3 x hx) (Nat.lt_succ_self _)
    · rcases List.mem_singleton.mp hx with rfl
      exact lt_trans hitem (Nat.lt_succ_self _)
  · intro x hx
    rcases List.mem_append.mp hx with hx | hx
    · exact h4 x hx
    · rcases List.mem_singleton.mp hx with rfl
      exact hq
  · show ((s.reservations ++ [r]).map (fun x => x.id)).Nodup
    rw [List.map_append]
    rw [List.nodup_append]
    refine ⟨h6, List.nodup_singleton _, ?_⟩
    intro a ha hb
    rcases List.mem_singleton.mp hb with rfl
    obtain ⟨x, hx, hxa⟩ := List.mem_map.mp ha
    have hlt := h2 x hx
    simp only at hxa
    omega

theorem WF_insertItem (s : DBState) (i : Item) (hid : i.id = s.nextId) (hwf : WF s) :
    WF { s with items := s.items ++ [i], nextId := s.nextId + 1 } := by
  obtain ⟨h1, h2, h3, h4, h5, h6⟩ := hwf
  refine ⟨?_, ?_, ?_, h4, ?_, h6⟩
  · intro x hx
    rcases List.mem_append.mp hx with hx | hx
    · exact lt_trans (h1 x hx) (Nat.lt_succ_self _)
    · rcases List.mem_singleton.mp hx with rfl
      rw [hid]; exact Nat.lt_succ_self _
  · intro x hx; exact lt_trans (h2 x hx) (Nat.lt_succ_self _)
  · intro x hx; exact lt_trans (h3 x hx) (Nat.lt_succ_self _)
  · show ((s.items ++ [i]).map (fun x => x.id)).Nodup
    rw [List.map_append, List.nodup_append]
    refine ⟨h5, List.nodup_singleton _, ?_⟩
    intro a ha hb
    rcases List.mem_singleton.mp hb with rfl
    obtain ⟨x, hx, hxa⟩ := List.mem_map.mp ha
    have hlt := h1 x hx
    simp only at hxa
    omega

/-! ### Lookup lemmas -/

theorem findItem_mem {s : DBState} {j : Nat} {item : Item} (h : findItem s j = some item) :
    item ∈ s.items ∧ item.id = j := by
  refine ⟨List.mem_of_find?_eq_some h, ?_⟩
  have := List.find?_some h
  simpa using this

theorem findReservation_mem {s : DBState} {j : Nat} {r : Reservation}
    (h : findReservation s j = some r) : r ∈ s.reservations ∧ r.id = j := by
  refine ⟨List.mem_of_find?_eq_some h, ?_⟩
  have := List.find?_some h
  simpa using this

theorem findReservation_append_fresh (s : DBState) (r : Reservation)
    (h : ∀ x ∈ s.reservations, x.id < s.nextId) (hid : r.id = s.nextId) :
    findReservation
      { s with reservations := s.reservations ++ [r], nextId := s.nextId + 1 } r.id = some r := by
  unfold findReservation
  show (s.reservations ++ [r]).find? (fun x => x.id == r.id) = some r
  rw [List.find?_append]
  have hnone : s.reservations.find? (fun x => x.id == r.id) = none := by
    rw [List.find?_eq_none]
    intro x hx
    have := h x hx
    simp only [beq_iff_eq]
    omega
  rw [hnone]
  simp [List.find?]

/-! ### Characterization of `createReservation` -/

theorem createReservation_notFound {s : DBState} {itemId : Nat}
    (h : findItem s itemId = none) (c : String) (q now e : Int) :
    createReservation s itemId c q now e = (Except.error ServiceError.itemNotFound, s) := by
  unfold createReservation
  rw [h]

theorem createReservation_insufficient {s : DBState} {itemId : Nat} {item : Item}
    (hfind : findItem s itemId = some item) (c : String) {q : Int} (now e : Int)
    (hav : availableQuantity s item now < q) :
    createReservation s itemId c q now e =
      (Except.error (ServiceError.insufficientQuantity q (availableQuantity s item now)), s) := by
  have hid : item.id = itemId := (findItem_mem hfind).2
  unfold availableQuantity at hav ⊢
  rw [hid] at hav ⊢
  unfold createReservation create_reservation_atomic
  rw [hfind]
  simp only [hav, if_true, ite_true, if_pos]

theorem createReservation_ok {s : DBState} {itemId : Nat} {item : Item}
    (hwf : WF s) (hfind : findItem s itemId = some item)
    (c : String) {q : Int} (now : Int) {e : Int} (hq : 0 < q) (he : 0 < e)
    (hav : q ≤ availableQuantity s item now) :
    createReservation s itemId c q now e =
      (Except.ok (newRes s itemId c q (now + e) now),
       { s with reservations := s.reservations ++ [newRes s itemId c q (now + e) now],
                nextId := s.nextId + 1 }) := by
  have hid : item.id = itemId := (findItem_mem hfind).2
  unfold availableQuantity at hav
  rw [hid] at hav
  have hnlt : ¬ (item.totalQuantity - getActiveReservedQuantity s itemId now -
      getConfirmedQuantity s itemId < q) := by omega
  have hck : 0 < q ∧ now < now + e := ⟨hq, by omega⟩
  have hfetch : findReservation
      { s with reservations := s.reservations ++ [newRes s itemId c q (now + e) now],
               nextId := s.nextId + 1 } (newRes s itemId c q (now + e) now).id
      = some (newRes s itemId c q (now + e) now) :=
    findReservation_append_fresh s _ hwf.2.1 rfl
  unfold createReservation create_reservation_atomic insertReservation
  rw [hfind]
  simp only [hnlt, if_false, ite_false, hck.1, hck.2, and_self, if_true, ite_true, hfetch]

/-! ### State shape of each operation -/

theorem createReservation_state (s : DBState) (itemId : Nat) (c : String) (q t e : Int) :
    (createReservation s itemId c q t e).2 = s ∨
    (∃ item, findItem s itemId = some item ∧ 0 < q ∧ t < t + e ∧
      q ≤ item.totalQuantity - getActiveReservedQuantity s itemId t - getConfirmedQuantity s itemId ∧
      (createReservation s itemId c q t e).2 =
        { s with reservations := s.reservations ++ [newRes s itemId c q (t + e) t],
                 nextId := s.nextId + 1 }) := by
  unfold createReservation
  cases hfi : findItem s itemId with
  | none => left; rfl
  | some item =>
    unfold create_reservation_atomic insertReservation
    rw [hfi]
    by_cases hlt : item.totalQuantity - getActiveReservedQuantity s itemId t -
        getConfirmedQuantity s itemId < q
    · left; simp [hlt]
    · by_cases hck : 0 < q ∧ 0 < e
      · right
        have hck2 : t < t + e := by omega
        refine ⟨item, rfl, hck.1, hck2, by omega, ?_⟩
        simp only [hlt, ite_false, if_false, hck.1, hck2, and_self, if_true, ite_true]
        cases findReservation
          { s with reservations := s.reservations ++ [newRes s itemId c q (t + e) t],
                   nextId := s.nextId + 1 } (newRes s itemId c q (t + e) t).id <;> rfl
      · left; simp [hlt, hck]

theorem confirmReservation_state (s : DBState) (id : Nat) (t : Int) :
    (confirmReservation s id t).2 = s ∨
    (confirmReservation s id t).2 =
      { s with reservations :=
          s.reservations.map (fun x => if confirmGuard id t x then applyConfirm t x else x) } := by
  unfold confirmReservation confirmReservationAt
  cases hfr : findReservation s id with
  | none => left; rfl
  | some existing =>
    by_cases h1 : existing.status = ReservationStatus.CONFIRMED
    · left; simp [h1]
    · by_cases h2 : existing.status = ReservationStatus.PENDING
      · by_cases h3 : existing.expiresAt < t
        · left; simp [h1, h2, h3]
        · unfold repoConfirmReservation
          cases hg : s.reservations.find? (confirmGuard id t) with
          | none => left; simp [h1, h2, h3, hg, hfr]
          | some rg => right; simp [h1, h2, h3, hg]
      · left; simp [h1, h2]

theorem cancelReservation_state (s : DBState) (id : Nat) (t : Int) :
    (cancelReservation s id t).2 = s ∨
    (cancelReservation s id t).2 =
      { s with reservations :=
          s.reservations.map (fun x => if cancelGuard id x then applyCancel t x else x) } := by
  unfold cancelReservation cancelReservationAt
  cases hfr : findReservation s id with
  | none => left; rfl
  | some existing =>
    by_cases h1 : existing.status = ReservationStatus.CANCELLED
    · left; simp [h1]
    · by_cases h2 : existing.status = ReservationStatus.EXPIRED
      · left; simp [h1, h2]
      · by_cases h3 : existing.status = ReservationStatus.CONFIRMED
        · left; simp [h1, h2, h3]
        · unfold repoCancelReservation
          cases hg : s.reservations.find? (cancelGuard id) with
          | none => left; simp [h1, h2, h3, hg, hfr]
          | some rg => right; simp [h1, h2, h3, hg]

theorem expireReservations_state (s : DBState) (t : Int) :
    (expireReservations s t).2 =
      { s with reservations :=
          s.reservations.map (fun r => if dueForExpiry t r then applyExpire t r else r) } := rfl

/-! ### Pointwise effect of the guarded updates on the invariant sums -/

theorem heldContrib_confirm (j : Nat) (t : Int) (id : Nat) (x : Reservation) :
    heldContrib j t (if confirmGuard id t x then applyConfirm t x else x) = heldContrib j t x := by
  by_cases hg : confirmGuard id t x
  · have hx : x.status = ReservationStatus.PENDING ∧ t < x.expiresAt := by
      unfold confirmGuard at hg
      simp only [Bool.and_eq_true, beq_iff_eq, decide_eq_true_eq] at hg
      exact ⟨hg.1.2, hg.2⟩
    rw [if_pos hg]
    unfold heldContrib isConfirmedFor isActivePending applyConfirm
    simp only [hx.1]
    cases hij : x.itemId == j <;> simp [hij, hx.2]
  · rw [if_neg hg]

theorem heldContrib_cancel (j : Nat) (t : Int) (id : Nat) (x : Reservation)
    (hq : 0 ≤ x.quantity) :
    heldContrib j t (if cancelGuard id x then applyCancel t x else x) ≤ heldContrib j t x := by
  by_cases hg : cancelGuard id x
  · have hx : x.status = ReservationStatus.PENDING := by
      unfold cancelGuard at hg
      simp only [Bool.and_eq_true, beq_iff_eq] at hg
      exact hg.2
    rw [if_pos hg]
    unfold heldContrib isConfirmedFor isActivePending applyCancel
    simp only [hx]
    cases hij : x.itemId == j <;>
      cases hd : decide (t < x.expiresAt) <;> simp [hij, hd] <;> omega
  · rw [if_neg hg]

theorem heldContrib_expire (j : Nat) (t : Int) (x : Reservation) :
    heldContrib j t (if dueForExpiry t x then applyExpire t x else x) = heldContrib j t x := by
  by_cases hg : dueForExpiry t x
  · have hx : x.status = ReservationStatus.PENDING ∧ x.expiresAt ≤ t := by
      unfold dueForExpiry at hg
      simp only [Bool.and_eq_true, beq_iff_eq, decide_eq_true_eq] at hg
      exact hg
    have hnlt : ¬ (t < x.expiresAt) := by omega
    rw [if_pos hg]
    unfold heldContrib isConfirmedFor isActivePending applyExpire
    simp only [hx.1]
    cases hij : x.itemId == j <;> simp [hij, hnlt]
  · rw [if_neg hg]

/-! ### Invariant preservation, operation by operation -/

theorem createItem_preserves (s : DBState) (n : String) (q t : Int)
    (hwf : WF s) (hinv : Invariant s t) :
    WF (createItem s n q t).2 ∧ Invariant (createItem s n q t).2 t := by
  unfold createItem
  by_cases hq : 0 < q
  · simp only [hq, if_true, ite_true]
    refine ⟨WF_insertItem s _ rfl hwf, ?_⟩
    intro item hitem
    rcases List.mem_append.mp hitem with hmem | hmem
    · exact hinv item hmem
    · rcases List.mem_singleton.mp hmem with rfl
      show getConfirmedQuantity s s.nextId + getActiveReservedQuantity s s.nextId t ≤ q
      have hz := aggregates_zero s s.nextId t
        (fun r hr => by have := hwf.2.2.1 r hr; omega)
      omega
  · simp only [hq, if_false, ite_false]
    exact ⟨hwf, hinv⟩

theorem createReservation_preserves (s : DBState) (itemId : Nat) (c : String) (q t e : Int)
    (hwf : WF s) (hinv : Invariant s t) :
    WF (createReservation s itemId c q t e).2 ∧
      Invariant (createReservation s itemId c q t e).2 t := by
  rcases createReservation_state s itemId c q t e with h | ⟨item, hfi, hq, he, hav, h⟩
  · rw [h]; exact ⟨hwf, hinv⟩
  · rw [h]
    have hitem := findItem_mem hfi
    have hidlt : itemId < s.nextId := hitem.2 ▸ hwf.1 item hitem.1
    constructor
    · exact WF_insertRes s _ rfl hidlt hq hwf
    · intro i hi
      have hi' : i ∈ s.items := hi
      have hbase := hinv i hi'
      unfold HoldsFor at hbase ⊢
      rw [getConfirmed_append_one, getActive_append_one]
      have hconf : isConfirmedFor i.id (newRes s itemId c q (t + e) t) = false := by
        unfold isConfirmedFor newRes
        simp
      by_cases hij : i.id = itemId
      · have hieq : i = item :=
          key_unique (fun x => x.id) hwf.2.2.2.2.1 hi' hitem.1 (by simp [hij, hitem.2])
        have hact : isActivePending i.id t (newRes s itemId c q (t + e) t) = true := by
          unfold isActivePending newRes
          simp [hij, he]
        rw [hconf, hact]
        have e1 : (if (false : Bool) = true then (newRes s itemId c q (t + e) t).quantity else 0)
            = 0 := rfl
        have e2 : (if (true : Bool) = true then (newRes s itemId c q (t + e) t).quantity else 0)
            = q := rfl
        rw [e1, e2, hieq, hitem.2]
        rw [hieq, hitem.2] at hbase
        omega
      · have hne : (itemId == i.id) = false := by
          simp only [beq_eq_false_iff_ne, ne_eq]
          exact fun hc => hij hc.symm
        have hact : isActivePending i.id t (newRes s itemId c q (t + e) t) = false := by
          unfold isActivePending newRes
          simp [hne]
        rw [hconf, hact]
        have e1 : (if (false : Bool) = true then (newRes s itemId c q (t + e) t).quantity else 0)
            = 0 := rfl
        rw [e1]
        omega

theorem confirm_preserves (s : DBState) (id : Nat) (t : Int)
    (hwf : WF s) (hinv : Invariant s t) :
    WF (confirmReservation s id t).2 ∧ Invariant (confirmReservation s id t).2 t := by
  rcases confirmReservation_state s id t with h | h
  · rw [h]; exact ⟨hwf, hinv⟩
  · rw [h]
    constructor
    · refine WF_map s _ ?_ ?_ ?_ hwf <;>
        intro r <;> by_cases hg : confirmGuard id t r <;> simp [hg, applyConfirm]
    · intro item hitem
      have hbase := hinv item hitem
      unfold HoldsFor at hbase ⊢
      rw [held_map_eq s item.id t _ (fun r _ => heldContrib_confirm item.id t id r)]
      exact hbase

theorem cancel_preserves (s : DBState) (id : Nat) (t : Int)
    (hwf : WF s) (hinv : Invariant s t) :
    WF (cancelReservation s id t).2 ∧ Invariant (cancelReservation s id t).2 t := by
  rcases cancelReservation_state s id t with h | h
  · rw [h]; exact ⟨hwf, hinv⟩
  · rw [h]
    constructor
    · refine WF_map s _ ?_ ?_ ?_ hwf <;>
        intro r <;> by_cases hg : cancelGuard id r <;> simp [hg, applyCancel]
    · intro item hitem
      have hbase := hinv item hitem
      unfold HoldsFor at hbase ⊢
      refine le_trans (held_map_le s item.id t _ ?_) hbase
      intro r hr
      exact heldContrib_cancel item.id t id r (le_of_lt (hwf.2.2.2.1 r hr))

theorem expire_preserves (s : DBState) (t : Int)
    (hwf : WF s) (hinv : Invariant s t) :
    WF (expireReservations s t).2 ∧ Invariant (expireReservations s t).2 t := by
  rw [expireReservations_state]
  constructor
  · refine WF_map s _ ?_ ?_ ?_ hwf <;>
      intro r <;> by_cases hg : dueForExpiry t r <;> simp [hg, applyExpire]
  · intro item hitem
    have hbase := hinv item hitem
    unfold HoldsFor at hbase ⊢
    rw [held_map_eq s item.id t _ (fun r _ => heldContrib_expire item.id t r)]
    exact hbase

theorem step_preserves (s : DBState) (t : Int) (op : Op)
    (hwf : WF s) (hinv : Invariant s t) :
    WF (step s t op) ∧ Invariant (step s t op) t := by
  cases op with
  | createItem n q => exact createItem_preserves s n q t hwf hinv
  | createReservation i c q e => exact createReservation_preserves s i c q t e hwf hinv
  | confirm id => exact confirm_preserves s id t hwf hinv
  | cancel id => exact cancel_preserves s id t hwf hinv
  | expireDue => exact expire_preserves s t hwf hinv

theorem execTrace_preserves :
    ∀ (tr : List (Int × Op)) (s : DBState) (t0 tEnd : Int),
      WF s → Invariant s t0 → TimesChain t0 tr tEnd →
      WF (execTrace s tr) ∧ Invariant (execTrace s tr) tEnd := by
  intro tr
  induction tr with
  | nil =>
    intro s t0 tEnd hwf hinv hch
    exact ⟨hwf, invariant_weaken (fun r hr => le_of_lt (hwf.2.2.2.1 r hr)) hch hinv⟩
  | cons p rest ih =>
    obtain ⟨t, op⟩ := p
    intro s t0 tEnd hwf hinv hch
    obtain ⟨h1, h2⟩ := hch
    have hinv2 := invariant_weaken (fun r hr => le_of_lt (hwf.2.2.2.1 r hr)) h1 hinv
    have hstep := step_preserves s t op hwf hinv2
    exact ih (step s t op) t tEnd hstep.1 hstep.2 h2

theorem WF_empty : WF emptyState := by
  refine ⟨?_, ?_, ?_, ?_, ?_, ?_⟩ <;> simp [emptyState, WF]

/-! ### Lifecycle helper lemmas -/

theorem findReservation_map (s : DBState) (f : Reservation → Reservation)
    (hf : ∀ x, (f x).id = x.id) (id : Nat) :
    findReservation { s with reservations := s.reservations.map f } id
      = (findReservation s id).map f := by
  unfold findReservation
  exact find?_map_key (fun x => x.id) f hf id s.reservations

theorem repoCancel_pending {s : DBState} {id : Nat} {r : Reservation}
    (hr : findReservation s id = some r) (hp : r.status = ReservationStatus.PENDING)
    (now : Int) :
    repoCancelReservation s id now =
      (some (applyCancel now r),
       { s with reservations :=
          s.reservations.map (fun x => if cancelGuard id x then applyCancel now x else x) }) := by
  have hrm := findReservation_mem hr
  unfold findReservation at hr
  have hg : s.reservations.find? (cancelGuard id) = some r := by
    refine find?_restrict (p := fun x => x.id == id) (q := cancelGuard id) ?_ hr ?_
    · intro x hx
      unfold cancelGuard at hx
      exact (Bool.and_eq_true _ _).mp hx |>.1
    · unfold cancelGuard
      simp [hrm.2, hp]
  unfold repoCancelReservation
  rw [hg]

theorem cancelReservation_pending {s : DBState} {id : Nat} {r : Reservation}
    (hr : findReservation s id = some r) (hp : r.status = ReservationStatus.PENDING)
    (now : Int) :
    cancelReservation s id now =
      (Except.ok (applyCancel now r),
       { s with reservations :=
          s.reservations.map (fun x => if cancelGuard id x then applyCancel now x else x) }) := by
  unfold cancelReservation cancelReservationAt
  rw [hr, repoCancel_pending hr hp now]
  simp [hp]

theorem repoConfirm_none_iff (s : DBState) (id : Nat) (now : Int) :
    (repoConfirmReservation s id now).1 = none ↔
      s.reservations.find? (confirmGuard id now) = none := by
  unfold repoConfirmReservation
  cases h : s.reservations.find? (confirmGuard id now) <;> simp

theorem repoCancel_none_iff (s : DBState) (id : Nat) (now : Int) :
    (repoCancelReservation s id now).1 = none ↔
      s.reservations.find? (cancelGuard id) = none := by
  unfold repoCancelReservation
  cases h : s.reservations.find? (cancelGuard id) <;> simp

theorem confirm_ok_inv (s : DBState) (id : Nat) (now : Int) {r2 : Reservation} {s2 : DBState}
    (hwf : WF s) (hok : confirmReservation s id now = (Except.ok r2, s2)) :
    findReservation s2 id = some r2 ∧ r2.status = ReservationStatus.CONFIRMED := by
  unfold confirmReservation confirmReservationAt at hok
  cases hfr : findReservation s id with
  | none => rw [hfr] at hok; simp at hok
  | some existing =>
    simp only [hfr] at hok
    by_cases h1 : existing.status = ReservationStatus.CONFIRMED
    · rw [if_pos h1] at hok
      simp only [Prod.mk.injEq, Except.ok.injEq] at hok
      obtain ⟨rfl, rfl⟩ := hok
      exact ⟨hfr, h1⟩
    · rw [if_neg h1] at hok
      by_cases h2 : existing.status = ReservationStatus.PENDING
      · have h2n : ¬ existing.status ≠ ReservationStatus.PENDING := by simp [h2]
        rw [if_neg h2n] at hok
        by_cases h3 : existing.expiresAt < now
        · rw [if_pos h3] at hok; simp at hok
        · rw [if_neg h3] at hok
          unfold repoConfirmReservation at hok
          cases hg : s.reservations.find? (confirmGuard id now) with
          | none =>
            simp only [hg, hfr] at hok
            rw [if_neg h1] at hok
            simp at hok
          | some rg =>
            simp only [hg] at hok
            simp only [Prod.mk.injEq, Except.ok.injEq] at hok
            obtain ⟨rfl, rfl⟩ := hok
            have hgr := List.find?_some hg
            have hgm := List.mem_of_find?_eq_some hg
            have hrm := findReservation_mem hfr
            have hgid : rg.id = id := by
              unfold confirmGuard at hgr
              simp only [Bool.and_eq_true, beq_iff_eq] at hgr
              exact hgr.1.1
            have hre : rg = existing := by
              refine key_unique (fun y => y.id) hwf.2.2.2.2.2 hgm hrm.1 ?_
              show rg.id = existing.id
              rw [hgid, hrm.2]
            refine ⟨?_, rfl⟩
            rw [findReservation_map s
              (fun x => if confirmGuard id now x then applyConfirm now x else x)
              (fun x => by by_cases hx : confirmGuard id now x <;> simp [hx, applyConfirm]) id]
            rw [hfr]
            rw [← hre]
            simp [hgr]
      · have h2p : existing.status ≠ ReservationStatus.PENDING := h2
        rw [if_pos h2p] at hok
        simp at hok

/-! ### Claim C1 -/

/-- C1: for every item and every state reachable from the empty database
by a timestamped sequence of CreateItem, CreateReservation, Confirm,
Cancel and ExpireDue operations with nondecreasing times, the sum of
quantities of its CONFIRMED reservations plus the sum of quantities of its
PENDING reservations with `expires_at > now` is at most the item's
`total_quantity`, at every observation instant `now` no earlier than the
trace's last operation. -/
theorem c1_invariant_reachable (tr : List (Int × Op)) (t0 now : Int)
    (hch : TimesChain t0 tr now) :
    Invariant (execTrace emptyState tr) now :=
  (execTrace_preserves tr emptyState t0 now WF_empty
    (fun _ hitem => by cases hitem) hch).2

/-- Witness for C1: the invariant holds after a concrete four-step trace. -/
theorem c1_invariant_reachable_witness :
    TimesChain 0 trW 4 ∧ Invariant (execTrace emptyState trW) 4 := by
  have hch : TimesChain 0 trW 4 := by
    simp only [trW, TimesChain]
    omega
  exact ⟨hch, c1_invariant_reachable trW 0 4 hch⟩

/-! ### Claim C3 -/

/-- C3: the `CreateReservation` contract. With `quantity > 0` and a
positive expiry duration: if the item does not exist the call fails with
`ItemNotFound`; if the item's available quantity (total minus
pending-unexpired minus confirmed) is below the request it fails with
`InsufficientQuantity{requested, available}`; otherwise it creates and
returns a new PENDING reservation with `expires_at = now + expiry`,
appending exactly that row to the store. -/
theorem c3_createReservation_contract (s : DBState) (itemId : Nat) (c : String)
    (q now e : Int) (hwf : WF s) (hq : 0 < q) (he : 0 < e) :
    (findItem s itemId = none →
      createReservation s itemId c q now e = (Except.error ServiceError.itemNotFound, s)) ∧
    (∀ item, findItem s itemId = some item → availableQuantity s item now < q →
      createReservation s itemId c q now e =
        (Except.error (ServiceError.insufficientQuantity q (availableQuantity s item now)), s)) ∧
    (∀ item, findItem s itemId = some item → q ≤ availableQuantity s item now →
      ∃ r s2, createReservation s itemId c q now e = (Except.ok r, s2) ∧
        r.status = ReservationStatus.PENDING ∧ r.expiresAt = now + e ∧
        r.itemId = itemId ∧ r.customerId = c ∧ r.quantity = q ∧
        s2.reservations = s.reservations ++ [r]) := by
  refine ⟨fun h => createReservation_notFound h c q now e,
          fun item hfi hav => createReservation_insufficient hfi c now e hav,
          fun item hfi hav => ?_⟩
  exact ⟨newRes s itemId c q (now + e) now, _,
    createReservation_ok hwf hfi c now hq he hav, rfl, rfl, rfl, rfl, rfl, rfl⟩

/-- Witness for C3 at a concrete store: one item with five units; a
request for two units succeeds as a PENDING reservation expiring at
`now + expiry`. -/
theorem c3_createReservation_contract_witness :
    WF sW ∧ (0 : Int) < 2 ∧ (0 : Int) < 10 ∧
    (∃ r s2, createReservation sW 0 "alice" 2 0 10 = (Except.ok r, s2) ∧
      r.status = ReservationStatus.PENDING ∧ r.expiresAt = 0 + 10 ∧
      r.itemId = 0 ∧ r.customerId = "alice" ∧ r.quantity = 2 ∧
      s2.reservations = sW.reservations ++ [r]) := by
  refine ⟨by unfold WF; decide, by decide, by decide, ?_⟩
  exact (c3_createReservation_contract sW 0 "alice" 2 0 10 (by unfold WF; decide) (by decide)
    (by decide)).2.2 itemW (by decide) (by decide)

/-! ### Claim C2 -/

theorem available_after_ok (s : DBState) {itemId : Nat} {item : Item}
    (hfi : findItem s itemId = some item) (c : String) (q now e : Int) (he : 0 < e) :
    availableQuantity
      { s with reservations := s.reservations ++ [newRes s itemId c q (now + e) now],
               nextId := s.nextId + 1 } item now
      = availableQuantity s item now - q := by
  have hid : item.id = itemId := (findItem_mem hfi).2
  have h2 : now < now + e := by omega
  unfold availableQuantity
  rw [getConfirmed_append_one, getActive_append_one]
  have hconf : isConfirmedFor item.id (newRes s itemId c q (now + e) now) = false := by
    unfold isConfirmedFor newRes
    simp
  have hact : isActivePending item.id now (newRes s itemId c q (now + e) now) = true := by
    unfold isActivePending newRes
    simp [hid, h2]
  rw [hconf, hact]
  have e1 : (if (false : Bool) = true then (newRes s itemId c q (now + e) now).quantity else 0)
      = 0 := rfl
  have e2 : (if (true : Bool) = true then (newRes s itemId c q (now + e) now).quantity else 0)
      = q := rfl
  rw [e1, e2]
  ring

theorem WF_after_ok (s : DBState) {itemId : Nat} {item : Item}
    (hwf : WF s) (hfi : findItem s itemId = some item) (c : String) {q : Int}
    (now e : Int) (hq : 0 < q) :
    WF { s with reservations := s.reservations ++ [newRes s itemId c q (now + e) now],
                nextId := s.nextId + 1 } := by
  have hitem := findItem_mem hfi
  exact WF_insertRes s _ rfl (hitem.2 ▸ hwf.1 item hitem.1) hq hwf

theorem runCreates_counts (itemId : Nat) (c : String) (now e : Int) (he : 0 < e)
    (item : Item) :
    ∀ (m : Nat) (s : DBState) (n : Nat), WF s → findItem s itemId = some item →
      availableQuantity s item now = (n : Int) →
      (runCreates s itemId c now e m).1.countP isOkResult = min m n ∧
      (runCreates s itemId c now e m).1.countP isInsufficientResult = m - n := by
  intro m
  induction m with
  | zero => intro s n _ _ _; simp [runCreates]
  | succ m ih =>
    intro s n hwf hfi hav
    cases n with
    | zero =>
      have hlt : availableQuantity s item now < 1 := by rw [hav]; norm_num
      have hout := createReservation_insufficient hfi c now e hlt
      obtain ⟨ih1, ih2⟩ := ih s 0 hwf hfi hav
      simp only [runCreates]
      rw [hout]
      simp [List.countP_cons, isOkResult, isInsufficientResult, ih1, ih2]
    | succ n =>
      have hav1 : (1 : Int) ≤ availableQuantity s item now := by
        rw [hav]; push_cast; omega
      have hout := createReservation_ok hwf hfi c now (by norm_num) he hav1
      have hwf2 := WF_after_ok s hwf hfi c now e (q := 1) (by norm_num)
      have hfi2 : findItem
          { s with reservations := s.reservations ++ [newRes s itemId c 1 (now + e) now],
                   nextId := s.nextId + 1 } itemId = some item := hfi
      have hav2 : availableQuantity
          { s with reservations := s.reservations ++ [newRes s itemId c 1 (now + e) now],
                   nextId := s.nextId + 1 } item now = (n : Int) := by
        rw [available_after_ok s hfi c 1 now e he, hav]
        push_cast
        ring
      obtain ⟨ih1, ih2⟩ := ih _ n hwf2 hfi2 hav2
      simp only [runCreates]
      rw [hout]
      simp only [List.countP_cons, ih1, ih2]
      constructor
      · simp [isOkResult]
        omega
      · simp [isInsufficientResult]

/-- C2: when `m > n` concurrent one-unit `CreateReservation` calls target
the same item with exactly `n` units available, then in the serialization
the per-item lock imposes, exactly `n` of the calls succeed and exactly
`m - n` fail with `InsufficientQuantity` — the number of successes equals
the pre-contention availability, no more and no fewer. -/
theorem c2_no_oversell (s : DBState) (itemId : Nat) (c : String) (now e : Int)
    (item : Item) (m n : Nat) (hwf : WF s) (hfi : findItem s itemId = some item)
    (hav : availableQuantity s item now = (n : Int)) (he : 0 < e) (hmn : n < m) :
    (runCreates s itemId c now e m).1.countP isOkResult = n ∧
    (runCreates s itemId c now e m).1.countP isInsufficientResult = m - n := by
  obtain ⟨h1, h2⟩ := runCreates_counts itemId c now e he item m s n hwf hfi hav
  refine ⟨?_, h2⟩
  rw [h1]
  omega

/-- Witness for C2: an item with two available units receives three
one-unit requests; exactly two succeed and one fails with
`InsufficientQuantity`. -/
theorem c2_no_oversell_witness :
    WF sW2 ∧ findItem sW2 0 = some itemW2 ∧
    availableQuantity sW2 itemW2 0 = ((2 : Nat) : Int) ∧ (0 : Int) < 10 ∧ (2 : Nat) < 3 ∧
    (runCreates sW2 0 "c" 0 10 3).1.countP isOkResult = 2 ∧
    (runCreates sW2 0 "c" 0 10 3).1.countP isInsufficientResult = 3 - 2 := by
  have h := c2_no_oversell sW2 0 "c" 0 10 itemW2 3 2 (by unfold WF; decide)
    (by decide) (by decide) (by decide) (by decide)
  exact ⟨by unfold WF; decide, by decide, by decide, by decide, by decide, h.1, h.2⟩

/-! ### Claim C9 -/

/-- C9: `CreateReservation` is atomic on failure. Whenever it fails with
`ItemNotFound` or with `InsufficientQuantity`, the resulting stored state
is exactly the pre-call state: no reservation row is created and no item
row changes. -/
theorem c9_create_failure_atomic (s : DBState) (itemId : Nat) (c : String)
    (q now e : Int) :
    ((createReservation s itemId c q now e).1 = Except.error ServiceError.itemNotFound →
      (createReservation s itemId c q now e).2 = s) ∧
    (∀ req av, (createReservation s itemId c q now e).1
        = Except.error (ServiceError.insufficientQuantity req av) →
      (createReservation s itemId c q now e).2 = s) := by
  unfold createReservation create_reservation_atomic insertReservation
  cases hfi : findItem s itemId with
  | none => exact ⟨fun _ => rfl, fun req av h => by simp at h⟩
  | some item =>
    by_cases hlt : item.totalQuantity - getActiveReservedQuantity s itemId now -
        getConfirmedQuantity s itemId < q
    · refine ⟨fun h => ?_, fun req av h => ?_⟩ <;> simp [hlt]
    · by_cases hck : 0 < q ∧ 0 < e
      · have hck2 : now < now + e := by omega
        refine ⟨fun h => ?_, fun req av h => ?_⟩ <;>
        · simp only [hlt, ite_false, if_false, hck.1, hck2, and_self, if_true, ite_true] at h
          cases hm : findReservation
            { s with reservations := s.reservations ++ [newRes s itemId c q (now + e) now],
                     nextId := s.nextId + 1 } (newRes s itemId c q (now + e) now).id <;>
            rw [hm] at h <;> simp at h
      · refine ⟨fun h => ?_, fun req av h => ?_⟩ <;> simp [hlt, hck]

/-- Witness for C9: a request against an empty store fails with
`ItemNotFound` and leaves the store untouched. -/
theorem c9_create_failure_atomic_witness :
    (createReservation emptyState 0 "alice" 1 0 10).1 = Except.error ServiceError.itemNotFound ∧
    (createReservation emptyState 0 "alice" 1 0 10).2 = emptyState := by
  refine ⟨by decide, ?_⟩
  exact (c9_create_failure_atomic emptyState 0 "alice" 1 0 10).1 (by decide)

/-! ### Claim C4 -/

/-- C4 counterexample: a PENDING reservation exactly at its expiry
instant (`expires_at = now = 100`, so `expires_at ≤ now`) is indeed not
confirmable, but Confirm fails with the generic `CONFIRMATION_FAILED`
conflict, not with `Expired{expired_at}` as the claim states: the service
pre-check uses the strict `expiresAt < now` while the guarded update
requires `expires_at > now`, so the boundary case falls through to the
lost-race branch. -/
theorem c4_confirm_expiry_cex :
    findReservation sP 1 = some rP ∧ rP.status = ReservationStatus.PENDING ∧
    rP.expiresAt ≤ 100 ∧
    (confirmReservation sP 1 100).1 = Except.error ServiceError.confirmationFailed ∧
    (confirmReservation sP 1 100).1
      ≠ Except.error (ServiceError.reservationExpired rP.expiresAt) := by
  decide

/-- C4 amended: a PENDING reservation with `expires_at ≤ now` is never
confirmable and Confirm leaves the state unchanged; when
`expires_at < now` (strictly) it fails with `Expired{expired_at}`, while
at the exact boundary `expires_at = now` it fails with the generic
`CONFIRMATION_FAILED` conflict instead. -/
theorem c4_confirm_expiry_guard (s : DBState) (id : Nat) (now : Int) (r : Reservation)
    (hwf : WF s) (hr : findReservation s id = some r)
    (hp : r.status = ReservationStatus.PENDING) (hexp : r.expiresAt ≤ now) :
    (confirmReservation s id now).2 = s ∧
    (r.expiresAt < now →
      (confirmReservation s id now).1
        = Except.error (ServiceError.reservationExpired r.expiresAt)) ∧
    (r.expiresAt = now →
      (confirmReservation s id now).1 = Except.error ServiceError.confirmationFailed) := by
  have hrm := findReservation_mem hr
  by_cases hlt : r.expiresAt < now
  · have heq : confirmReservation s id now
        = (Except.error (ServiceError.reservationExpired r.expiresAt), s) := by
      unfold confirmReservation confirmReservationAt
      rw [hr]
      simp [hp, hlt]
    rw [heq]
    exact ⟨rfl, fun _ => rfl, fun h => by omega⟩
  · have hnone : s.reservations.find? (confirmGuard id now) = none := by
      rw [List.find?_eq_none]
      intro x hx hgx
      unfold confirmGuard at hgx
      simp only [Bool.and_eq_true, beq_iff_eq, decide_eq_true_eq] at hgx
      have hxr : x = r := by
        refine key_unique (fun y => y.id) hwf.2.2.2.2.2 hx hrm.1 ?_
        show x.id = r.id
        rw [hgx.1.1, hrm.2]
      rw [hxr] at hgx
      omega
    have heq : confirmReservation s id now
        = (Except.error ServiceError.confirmationFailed, s) := by
      unfold confirmReservation confirmReservationAt repoConfirmReservation
      rw [hr, hnone]
      simp [hp, hlt, hr]
    rw [heq]
    exact ⟨rfl, fun h => by omega, fun _ => rfl⟩

/-- Witness for the amended C4: the strictly-expired case fails with
`Expired` and the state is unchanged. -/
theorem c4_confirm_expiry_guard_witness :
    WF sP ∧ findReservation sP 1 = some rP ∧
    rP.status = ReservationStatus.PENDING ∧ rP.expiresAt ≤ 150 ∧
    ((confirmReservation sP 1 150).2 = sP ∧
     (rP.expiresAt < 150 →
       (confirmReservation sP 1 150).1
         = Except.error (ServiceError.reservationExpired rP.expiresAt)) ∧
     (rP.expiresAt = 150 →
       (confirmReservation sP 1 150).1 = Except.error ServiceError.confirmationFailed)) := by
  refine ⟨by unfold WF; decide, by decide, by decide, by decide, ?_⟩
  exact c4_confirm_expiry_guard sP 1 150 rP (by unfold WF; decide) (by decide)
    (by decide) (by decide)

/-! ### Claim C5 -/

/-- C5 counterexample: Confirm passes its pre-checks against the first
snapshot, the guarded update then applies to zero rows because a
concurrent expiry sweep already moved the reservation to EXPIRED, the
re-read observes EXPIRED — and the operation fails with the generic
`CONFIRMATION_FAILED` conflict, which names no state, contradicting the
claim that a lost race always yields idempotent success or a
terminal-state conflict naming the observed state. -/
theorem c5_lost_race_cex :
    findReservation sP 1 = some rP ∧ rP.status = ReservationStatus.PENDING ∧
    ¬ rP.expiresAt < 10 ∧
    (repoConfirmReservation sPexp 1 10).1 = none ∧
    findReservation sPexp 1 = some rPexp ∧
    rPexp.status = ReservationStatus.EXPIRED ∧
    (confirmReservationAt sP sPexp 1 10).1 = Except.error ServiceError.confirmationFailed := by
  decide

/-- C5 amended: when the guarded conditional update applies to zero rows,
both operations re-read the reservation, but they resolve to idempotent
success only when the re-read shows their own target state (CONFIRMED for
Confirm; CANCELLED or EXPIRED for Cancel); in every other case they fail
with the generic `CONFIRMATION_FAILED` / `CANCELLATION_FAILED` conflict
(409) that does not name the observed state. -/
theorem c5_lost_race_reconciliation (pre upd : DBState) (id : Nat) (now : Int) :
    (∀ r, findReservation pre id = some r → r.status = ReservationStatus.PENDING →
      ¬ r.expiresAt < now → (repoConfirmReservation upd id now).1 = none →
      ((∃ cur, findReservation upd id = some cur ∧
          cur.status = ReservationStatus.CONFIRMED ∧
          confirmReservationAt pre upd id now = (Except.ok cur, upd)) ∨
        confirmReservationAt pre upd id now
          = (Except.error ServiceError.confirmationFailed, upd))) ∧
    (∀ r, findReservation pre id = some r → r.status = ReservationStatus.PENDING →
      (repoCancelReservation upd id now).1 = none →
      ((∃ cur, findReservation upd id = some cur ∧
          (cur.status = ReservationStatus.CANCELLED ∨
           cur.status = ReservationStatus.EXPIRED) ∧
          cancelReservationAt pre upd id now = (Except.ok cur, upd)) ∨
        cancelReservationAt pre upd id now
          = (Except.error ServiceError.cancellationFailed, upd))) := by
  constructor
  · intro r hr hp hexp hnone
    have hfind := (repoConfirm_none_iff upd id now).mp hnone
    unfold confirmReservationAt repoConfirmReservation
    rw [hr, hfind]
    cases hcur : findReservation upd id with
    | none => right; simp [hp, hexp, hcur]
    | some cur =>
      by_cases hcs : cur.status = ReservationStatus.CONFIRMED
      · left
        exact ⟨cur, rfl, hcs, by simp [hp, hexp, hcur, hcs]⟩
      · right
        simp [hp, hexp, hcur, hcs]
  · intro r hr hp hnone
    have hfind := (repoCancel_none_iff upd id now).mp hnone
    unfold cancelReservationAt repoCancelReservation
    rw [hr, hfind]
    cases hcur : findReservation upd id with
    | none => right; simp [hp, hcur]
    | some cur =>
      by_cases hcs : cur.status = ReservationStatus.CANCELLED ∨
          cur.status = ReservationStatus.EXPIRED
      · left
        exact ⟨cur, rfl, hcs, by simp [hp, hcur, hcs]⟩
      · right
        simp [hp, hcur, hcs]

/-- Witness for the amended C5 at concrete states: Confirm loses the race
to an expiry sweep and returns the generic conflict; the hypotheses of
both branches are discharged by evaluation. -/
theorem c5_lost_race_reconciliation_witness :
    (findReservation sP 1 = some rP ∧ rP.status = ReservationStatus.PENDING ∧
     ¬ rP.expiresAt < 10 ∧ (repoConfirmReservation sPexp 1 10).1 = none) ∧
    ((∃ cur, findReservation sPexp 1 = some cur ∧
        cur.status = ReservationStatus.CONFIRMED ∧
        confirmReservationAt sP sPexp 1 10 = (Except.ok cur, sPexp)) ∨
      confirmReservationAt sP sPexp 1 10
        = (Except.error ServiceError.confirmationFailed, sPexp)) := by
  refine ⟨⟨by decide, by decide, by decide, by decide⟩, ?_⟩
  exact (c5_lost_race_reconciliation sP sPexp 1 10).1 rP (by decide) (by decide)
    (by decide) (by decide)

/-! ### Claim C6 -/

/-- C6: Confirm is idempotent. A reservation whose status is CONFIRMED is
returned unchanged with its original `confirmed_at` and no state change;
consequently, whenever a Confirm call succeeds, a second Confirm at any
later (or any) time returns the very same reservation — same
`confirmed_at` — and the very same state, so availability changes only
once. -/
theorem c6_confirm_idempotent (s : DBState) (id : Nat) (hwf : WF s) :
    (∀ r now, findReservation s id = some r → r.status = ReservationStatus.CONFIRMED →
      confirmReservation s id now = (Except.ok r, s)) ∧
    (∀ now1 now2 r2 s2, confirmReservation s id now1 = (Except.ok r2, s2) →
      confirmReservation s2 id now2 = (Except.ok r2, s2)) := by
  constructor
  · intro r now hr hst
    unfold confirmReservation confirmReservationAt
    rw [hr]
    simp [hst]
  · intro now1 now2 r2 s2 hok
    obtain ⟨hfind2, hstat2⟩ := confirm_ok_inv s id now1 hwf hok
    unfold confirmReservation confirmReservationAt
    simp only [hfind2]
    rw [if_pos hstat2]

/-- Witness for C6: confirming an already-CONFIRMED reservation returns
it unchanged, with its original `confirmed_at`, and changes nothing. -/
theorem c6_confirm_idempotent_witness :
    WF sC ∧ findReservation sC 1 = some rC ∧
    rC.status = ReservationStatus.CONFIRMED ∧
    confirmReservation sC 1 50 = (Except.ok rC, sC) ∧ rC.confirmedAt = some 10 := by
  refine ⟨by unfold WF; decide, by decide, by decide, ?_, by decide⟩
  exact (c6_confirm_idempotent sC 1 (by unfold WF; decide)).1 rC 50 (by decide) (by decide)

/-! ### Claim C7 -/

/-- C7: the Cancel case analysis. A missing reservation fails with
`NotFound`; a CANCELLED or EXPIRED one is returned unchanged as a
success; a CONFIRMED one fails with `InvalidTransition{current_status}`;
a PENDING one transitions to CANCELLED with `cancelled_at = now` and is
returned. -/
theorem c7_cancel_case_analysis (s : DBState) (id : Nat) (now : Int) :
    (findReservation s id = none →
      cancelReservation s id now = (Except.error ServiceError.reservationNotFound, s)) ∧
    (∀ r, findReservation s id = some r →
      (r.status = ReservationStatus.CANCELLED ∨ r.status = ReservationStatus.EXPIRED) →
      cancelReservation s id now = (Except.ok r, s)) ∧
    (∀ r, findReservation s id = some r → r.status = ReservationStatus.CONFIRMED →
      cancelReservation s id now =
        (Except.error (ServiceError.invalidStatusTransition ReservationStatus.CONFIRMED), s)) ∧
    (∀ r, findReservation s id = some r → r.status = ReservationStatus.PENDING →
      ∃ r2 s2, cancelReservation s id now = (Except.ok r2, s2) ∧
        r2.status = ReservationStatus.CANCELLED ∧ r2.cancelledAt = some now ∧
        r2.id = r.id ∧ r2.itemId = r.itemId ∧ r2.quantity = r.quantity ∧
        findReservation s2 id = some r2) := by
  refine ⟨?_, ?_, ?_, ?_⟩
  · intro h
    unfold cancelReservation cancelReservationAt
    rw [h]
  · intro r hr hst
    unfold cancelReservation cancelReservationAt
    rw [hr]
    rcases hst with hst | hst <;> simp [hst]
  · intro r hr hst
    unfold cancelReservation cancelReservationAt
    rw [hr]
    simp [hst]
  · intro r hr hst
    refine ⟨applyCancel now r,
      { s with reservations :=
          s.reservations.map (fun x => if cancelGuard id x then applyCancel now x else x) },
      cancelReservation_pending hr hst now, rfl, rfl, rfl, rfl, rfl, ?_⟩
    rw [findReservation_map s
      (fun x => if cancelGuard id x then applyCancel now x else x)
      (fun x => by by_cases hx : cancelGuard id x <;> simp [hx, applyCancel]) id]
    rw [hr]
    have hg : cancelGuard id r = true := by
      unfold cancelGuard
      simp [(findReservation_mem hr).2, hst]
    simp [hg]

/-- Witness for C7: cancelling a fresh PENDING reservation transitions it
to CANCELLED with `cancelled_at = now`. -/
theorem c7_cancel_case_analysis_witness :
    findReservation sP 1 = some rP ∧ rP.status = ReservationStatus.PENDING ∧
    (∃ r2 s2, cancelReservation sP 1 50 = (Except.ok r2, s2) ∧
      r2.status = ReservationStatus.CANCELLED ∧ r2.cancelledAt = some 50 ∧
      r2.id = rP.id ∧ r2.itemId = rP.itemId ∧ r2.quantity = rP.quantity ∧
      findReservation s2 1 = some r2) := by
  refine ⟨by decide, by decide, ?_⟩
  exact (c7_cancel_case_analysis sP 1 50).2.2.2 rP (by decide) (by decide)

/-! ### Claim C8 -/

/-- C8: ExpireDue transitions exactly the reservations with
`status = PENDING` and `expires_at ≤ now` to EXPIRED with
`expired_at = now` in one set-based update over the store, returns the
ids of exactly those reservations together with their count, leaves every
other reservation untouched, and returns `{0, []}` as a success when
nothing is due. -/
theorem c8_expire_due_spec (s : DBState) (now : Int) :
    ((expireReservations s now).1.expiredReservationIds
        = (s.reservations.filter (dueForExpiry now)).map (fun r => r.id)) ∧
    ((expireReservations s now).1.expiredCount
        = (s.reservations.filter (dueForExpiry now)).length) ∧
    ((expireReservations s now).2.reservations
        = s.reservations.map (fun r => if dueForExpiry now r then applyExpire now r else r)) ∧
    (∀ r ∈ s.reservations, dueForExpiry now r = true →
        applyExpire now r ∈ (expireReservations s now).2.reservations ∧
        (applyExpire now r).status = ReservationStatus.EXPIRED ∧
        (applyExpire now r).expiredAt = some now ∧
        r.id ∈ (expireReservations s now).1.expiredReservationIds) ∧
    (∀ r ∈ s.reservations, dueForExpiry now r = false →
        r ∈ (expireReservations s now).2.reservations) ∧
    (s.reservations.filter (dueForExpiry now) = [] →
        (expireReservations s now).1.expiredCount = 0 ∧
        (expireReservations s now).1.expiredReservationIds = [] ∧
        (expireReservations s now).2 = s) := by
  refine ⟨rfl, by simp [expireReservations], rfl, ?_, ?_, ?_⟩
  · intro r hr hdue
    refine ⟨?_, rfl, rfl, ?_⟩
    · show applyExpire now r ∈
        s.reservations.map (fun x => if dueForExpiry now x then applyExpire now x else x)
      refine List.mem_map.mpr ⟨r, hr, ?_⟩
      simp [hdue]
    · show r.id ∈ (s.reservations.filter (dueForExpiry now)).map (fun x => x.id)
      exact List.mem_map.mpr ⟨r, List.mem_filter.mpr ⟨hr, hdue⟩, rfl⟩
  · intro r hr hdue
    show r ∈ s.reservations.map (fun x => if dueForExpiry now x then applyExpire now x else x)
    refine List.mem_map.mpr ⟨r, hr, ?_⟩
    simp [hdue]
  · intro hnil
    have hall : ∀ r ∈ s.reservations, dueForExpiry now r = false := by
      intro r hr
      cases hfil : dueForExpiry now r with
      | false => rfl
      | true =>
        exfalso
        have hm : r ∈ s.reservations.filter (dueForExpiry now) :=
          List.mem_filter.mpr ⟨hr, hfil⟩
        rw [hnil] at hm
        cases hm
    have hmap : s.reservations.map
        (fun r => if dueForExpiry now r then applyExpire now r else r) = s.reservations := by
      have hcg : ∀ r ∈ s.reservations,
          (if dueForExpiry now r then applyExpire now r else r) = r := by
        intro r hr
        simp [hall r hr]
      rw [List.map_congr_left hcg]
      exact List.map_id' s.reservations
    refine ⟨?_, ?_, ?_⟩
    · show ((s.reservations.filter (dueForExpiry now)).map (fun r => r.id)).length = 0
      rw [hnil]
      rfl
    · show (s.reservations.filter (dueForExpiry now)).map (fun r => r.id) = []
      rw [hnil]
      rfl
    · show ({ s with reservations := (s.reservations.map (fun r => if dueForExpiry now r then applyExpire now r else r)) } : DBState) = s
      rw [hmap]

/-- Witness for C8: with one unexpired PENDING reservation and `now`
before its expiry, nothing is due and ExpireDue returns `{0, []}`,
leaving the state unchanged. -/
theorem c8_expire_due_spec_witness :
    sP.reservations.filter (dueForExpiry 50) = [] ∧
    (expireReservations sP 50).1.expiredCount = 0 ∧
    (expireReservations sP 50).1.expiredReservationIds = [] ∧
    (expireReservations sP 50).2 = sP := by
  have h := (c8_expire_due_spec sP 50).2.2.2.2.2 (by decide)
  exact ⟨by decide, h.1, h.2.1, h.2.2⟩

/-! ### Claim C10 -/

/-- C10: Cancel never checks `expires_at`. A PENDING reservation whose
`expires_at ≤ now` (expired but not yet swept) is still cancelled:
it transitions to CANCELLED with `cancelled_at = now`, ends CANCELLED
rather than EXPIRED, and a subsequent ExpireDue at any time neither lists
it nor modifies it. -/
theorem c10_cancel_ignores_expiry (s : DBState) (id : Nat) (now : Int) (r : Reservation)
    (hr : findReservation s id = some r) (hp : r.status = ReservationStatus.PENDING)
    (hexp : r.expiresAt ≤ now) :
    ∃ s2, cancelReservation s id now = (Except.ok (applyCancel now r), s2) ∧
      (applyCancel now r).status = ReservationStatus.CANCELLED ∧
      (applyCancel now r).cancelledAt = some now ∧
      findReservation s2 id = some (applyCancel now r) ∧
      (∀ t, r.id ∉ (expireReservations s2 t).1.expiredReservationIds) ∧
      (∀ t, findReservation (expireReservations s2 t).2 id = some (applyCancel now r)) := by
  have hrm := findReservation_mem hr
  have hg : cancelGuard id r = true := by
    unfold cancelGuard
    simp [hrm.2, hp]
  refine ⟨{ s with reservations :=
      s.reservations.map (fun x => if cancelGuard id x then applyCancel now x else x) },
    cancelReservation_pending hr hp now, rfl, rfl, ?_, ?_, ?_⟩
  · rw [findReservation_map s
      (fun x => if cancelGuard id x then applyCancel now x else x)
      (fun x => by by_cases hx : cancelGuard id x <;> simp [hx, applyCancel]) id]
    rw [hr]
    simp [hg]
  · intro t hmem
    show False
    have hmem2 : r.id ∈ ((s.reservations.map
        (fun x => if cancelGuard id x then applyCancel now x else x)).filter
          (dueForExpiry t)).map (fun x => x.id) := hmem
    obtain ⟨x, hxf, hxid⟩ := List.mem_map.mp hmem2
    obtain ⟨hxm, hxdue⟩ := List.mem_filter.mp hxf
    obtain ⟨y, hym, hyx⟩ := List.mem_map.mp hxm
    unfold dueForExpiry at hxdue
    simp only [Bool.and_eq_true, beq_iff_eq, decide_eq_true_eq] at hxdue
    by_cases hgy : cancelGuard id y
    · rw [if_pos hgy] at hyx
      rw [← hyx] at hxdue
      exact absurd hxdue.1 (by simp [applyCancel])
    · rw [if_neg hgy] at hyx
      subst hyx
      unfold cancelGuard at hgy
      simp only [Bool.and_eq_true, beq_iff_eq, not_and] at hgy
      have hyid : y.id = id := by rw [hxid, hrm.2]
      exact absurd hxdue.1 (hgy hyid)
  · intro t
    rw [expireReservations_state]
    rw [findReservation_map _
      (fun x => if dueForExpiry t x then applyExpire t x else x)
      (fun x => by by_cases hx : dueForExpiry t x <;> simp [hx, applyExpire]) id]
    rw [findReservation_map s
      (fun x => if cancelGuard id x then applyCancel now x else x)
      (fun x => by by_cases hx : cancelGuard id x <;> simp [hx, applyCancel]) id]
    rw [hr]
    have hnd : dueForExpiry t (applyCancel now r) = false := rfl
    simp [hg, hnd]

/-- Witness for C10: an expired-but-unswept PENDING reservation is
cancelled at `now = 150`, ends CANCELLED, and a later sweep ignores it. -/
theorem c10_cancel_ignores_expiry_witness :
    findReservation sP 1 = some rP ∧ rP.status = ReservationStatus.PENDING ∧
    rP.expiresAt ≤ 150 ∧
    (∃ s2, cancelReservation sP 1 150 = (Except.ok (applyCancel 150 rP), s2) ∧
      (applyCancel 150 rP).status = ReservationStatus.CANCELLED ∧
      (applyCancel 150 rP).cancelledAt = some 150 ∧
      findReservation s2 1 = some (applyCancel 150 rP) ∧
      (∀ t, rP.id ∉ (expireReservations s2 t).1.expiredReservationIds) ∧
      (∀ t, findReservation (expireReservations s2 t).2 1 = some (applyCancel 150 rP))) := by
  refine ⟨by decide, by decide, by decide, ?_⟩
  exact c10_cancel_ignores_expiry sP 1 150 rP (by decide) (by decide) (by decide)

end InventoryReservation
